import Mathlib

/-!
# Verification of the embedded DNS forwarding resolver (`pkg/hostagent/dns.go`)

Shallow embedding of the host agent's DNS handler: configuration discovery
(`newHandler`), domain-suffix routing (`matchDomainConfig`), upstream
forwarding (`tryWithConfig`), the per-query orchestration (`ServeDNS`) and
the listener lifecycle (`StartDNS` / `Server.Shutdown`).

Network I/O (the `dns.Client.Exchange` calls) is modelled by an oracle
`Network`: given the client's transport (`""` = UDP, `"tcp"` = TCP), the
server address string and the request, it returns `some reply` when the
exchange completes without a transport-level error (whatever the DNS-level
response code is) and `none` on a transport-level failure.  Writes to the
`dns.ResponseWriter` are collected in an explicit write log.
-/

/-- DNS message header, mirroring `dns.MsgHdr` of `miekg/dns`
(`Id uint16`, `Opcode int`, `Rcode int`, and the boolean flags). -/
structure MsgHdr where
  id : Nat
  response : Bool
  opcode : Nat
  authoritative : Bool
  truncated : Bool
  recursionDesired : Bool
  recursionAvailable : Bool
  zero : Bool
  authenticatedData : Bool
  checkingDisabled : Bool
  rcode : Nat
deriving Repr, DecidableEq

/-- A single DNS question (`dns.Question`): name, record type, class. -/
structure Question where
  name : String
  qtype : Nat
  qclass : Nat
deriving Repr, DecidableEq

/-- A DNS message (`dns.Msg`): header, questions, and the answer payload
(resource records abstracted to opaque strings; the handler never inspects
them, it only relays whole messages). -/
structure Msg where
  msgHdr : MsgHdr
  question : List Question
  answer : List String
deriving Repr, DecidableEq

/-- `dns.OpcodeQuery` (= 0 in `miekg/dns`). -/
def OpcodeQuery : Nat := 0

/-- `dns.OpcodeIQuery` (= 1 in `miekg/dns`). -/
def OpcodeIQuery : Nat := 1

/-- `dns.OpcodeNotify` (= 4 in `miekg/dns`), used as a concrete non-query opcode. -/
def OpcodeNotify : Nat := 4

/-- `dns.RcodeServerFailure` (= 2 in `miekg/dns`). -/
def RcodeServerFailure : Nat := 2

/-- `dns.RcodeNameError` (NXDOMAIN, = 3 in `miekg/dns`). -/
def RcodeNameError : Nat := 3

/-- `dns.ClientConfig`: the fields the handler reads (`Servers`, `Port`). -/
structure ClientConfig where
  servers : List String
  port : String
deriving Repr, DecidableEq

/-- `dns.Client`: the field the handler sets (`Net`; `""` means UDP). -/
structure Client where
  net : String
deriving Repr, DecidableEq

/-- The `clients` slice built by `newHandler`:
`[]*dns.Client{ {}, {Net: "tcp"} }` — UDP first, then TCP. -/
def stdClients : List Client := [{ net := "" }, { net := "tcp" }]

/-- The upstream-exchange oracle standing for `client.Exchange(req, addr)`:
arguments are the client's `Net` field, the address string and the request;
`none` models a transport-level error, `some reply` a completed exchange
(whatever `reply`'s response code is). -/
def Network : Type := String → String → Msg → Option Msg

/-- The handler state built by `newHandler`.  The Go field
`domainClientConfigs` is a `map[string][]*dns.ClientConfig`; a Go map has an
unspecified iteration order, so it is modelled as an association list fixing
one such order (no claim below depends on which). -/
structure Handler where
  domainClientConfigs : List (String × List ClientConfig)
  defaultClientConfigs : List ClientConfig
  clients : List Client
deriving Repr, DecidableEq

/-- ASCII case folding of one character, the fragment of Go's
`strings.ToLower` relevant to DNS names (which are ASCII). -/
def goCharToLower (c : Char) : Char :=
  if 65 ≤ c.toNat ∧ c.toNat ≤ 90 then Char.ofNat (c.toNat + 32) else c

/-- `strings.ToLower` (ASCII fragment). -/
def goToLower (s : String) : String := String.mk (s.data.map goCharToLower)

/-- Go's `strings.HasSuffix(s, suffix)`. -/
def goHasSuffix (s suffix : String) : Bool := suffix.data.isSuffixOf s.data

/-- The suffix test performed by `matchDomainConfig` (dns.go line 339):
`strings.HasSuffix(strings.ToLower(q.Name), strings.ToLower(domain)+".")`.
Note the literal dot is appended *after* the domain (it is the FQDN trailing
dot of the query name), not prepended. -/
def matchesDomain (name domain : String) : Bool :=
  goHasSuffix (goToLower name) (goToLower domain ++ ".")

/-- The matching rule as the specification words it: the case-folded query
name equals the scope, or ends with a literal dot followed by the scope.
Declared only to be compared against `matchesDomain`, the rule the code
implements. -/
def specLabelBoundaryMatch (name domain : String) : Bool :=
  goToLower name == goToLower domain ||
    goHasSuffix (goToLower name) ("." ++ goToLower domain)

theorem string_mk_append (a b : List Char) :
    (String.mk a ++ String.mk b : String) = String.mk (a ++ b) := rfl

theorem goHasSuffix_iff (s suffix : String) :
    goHasSuffix s suffix = true ↔ ∃ p : List Char, s.data = p ++ suffix.data := by
  unfold goHasSuffix
  rw [List.isSuffixOf_iff_suffix]
  constructor
  · rintro ⟨t, ht⟩
    exact ⟨t, ht.symm⟩
  · rintro ⟨p, hp⟩
    exact ⟨p, hp.symm⟩

/-- C1 counterexample: the query name `fooexample.com.` (the wire form of
`fooexample.com`) is matched by the code against scope `example.com`,
although the spec's label-boundary rule rejects it. -/
theorem matchesDomain_boundary_counterexample :
    matchesDomain "fooexample.com." "example.com" = true ∧
    specLabelBoundaryMatch "fooexample.com." "example.com" = false := by
  decide

/-- C1 (amended): the router's suffix test case-folds both sides and accepts
exactly the names whose folded form ends with the folded scope followed by a
literal dot (the FQDN trailing dot); no label boundary in front of the scope
is required.  So the wire form `foo.example.com.` matches scope
`example.com` (also in mixed case), but `fooexample.com.` matches as well,
and a name without the trailing dot never matches. -/
theorem matchesDomain_characterization :
    (∀ name domain : String, matchesDomain name domain = true ↔
      ∃ p : List Char,
        (goToLower name).data = p ++ ((goToLower domain).data ++ ['.'])) ∧
    matchesDomain "foo.example.com." "Example.COM" = true ∧
    matchesDomain "fooexample.com." "example.com" = true ∧
    matchesDomain "foo.example.com" "example.com" = false := by
  refine ⟨?_, by decide, by decide, by decide⟩
  intro name domain
  unfold matchesDomain
  rw [goHasSuffix_iff]
  constructor
  · rintro ⟨p, hp⟩
    exact ⟨p, by simpa [goToLower, string_mk_append] using hp⟩
  · rintro ⟨p, hp⟩
    exact ⟨p, by simpa [goToLower, string_mk_append] using hp⟩

/-- Result of one `tryWithConfig` call: the `(Net, addr)` pairs for which
`client.Exchange` was invoked, in order; the messages written to the
response writer; and whether the call returned a nil error. -/
structure ExchangeOutcome where
  attempts : List (String × String)
  writes : List Msg
  ok : Bool
deriving Repr, DecidableEq

/-- Inner loop of `tryWithConfig` (dns.go lines 323-332) for one client:
for each server address build `srv ++ ":" ++ port`, exchange; on a
transport error log and continue, otherwise write the reply verbatim and
return success. -/
def tryServers (ex : Network) (req : Msg) (cfg : ClientConfig)
    (client : Client) : List String → ExchangeOutcome
  | [] => ⟨[], [], false⟩
  | srv :: rest =>
    let addr := srv ++ ":" ++ cfg.port
    match ex client.net addr req with
    | some reply => ⟨[(client.net, addr)], [reply], true⟩
    | none =>
      let s := tryServers ex req cfg client rest
      ⟨(client.net, addr) :: s.attempts, s.writes, s.ok⟩

/-- Outer loop of `tryWithConfig` (dns.go line 322): clients in slice order
(UDP first, then TCP for a handler built by `newHandler`). -/
def tryClients (ex : Network) (req : Msg) (cfg : ClientConfig) :
    List Client → ExchangeOutcome
  | [] => ⟨[], [], false⟩
  | c :: cs =>
    let s := tryServers ex req cfg c cfg.servers
    if s.ok then s
    else
      let s2 := tryClients ex req cfg cs
      ⟨s.attempts ++ s2.attempts, s.writes ++ s2.writes, s2.ok⟩

/-- `(h *Handler) tryWithConfig(w, req, clientConfig)` (dns.go lines
321-335): iterate `h.clients` × `clientConfig.Servers`; the first exchange
without a transport error is written verbatim and ends the call with a nil
error; if all attempts fail, return the "No nameservers found" error. -/
def tryWithConfig (ex : Network) (h : Handler) (req : Msg)
    (cfg : ClientConfig) : ExchangeOutcome :=
  tryClients ex req cfg h.clients

/-- Result of the routing layers: resolver groups (client configs) passed
to `tryWithConfig`, in order; messages written; nil-error flag. -/
structure ServeOutcome where
  cfgAttempts : List ClientConfig
  writes : List Msg
  ok : Bool
deriving Repr, DecidableEq

/-- Inner loop of `matchDomainConfig` (dns.go lines 340-344) and the
default-chain loop of `ServeDNS` (lines 358-362): try each config in order,
stopping at the first success. -/
def tryConfigs (ex : Network) (h : Handler) (req : Msg) :
    List ClientConfig → ServeOutcome
  | [] => ⟨[], [], false⟩
  | cfg :: rest =>
    let r := tryWithConfig ex h req cfg
    if r.ok then ⟨[cfg], r.writes, true⟩
    else
      let s := tryConfigs ex h req rest
      ⟨cfg :: s.cfgAttempts, r.writes ++ s.writes, s.ok⟩

/-- Loop body of `matchDomainConfig` (dns.go lines 338-346) over the
(arbitrarily ordered) entries of the domain table: for each entry whose
domain matches the question name, try its configs; a success returns nil,
otherwise iteration continues with the next entry. -/
def matchDomainLoop (ex : Network) (h : Handler) (req : Msg) (q : Question) :
    List (String × List ClientConfig) → ServeOutcome
  | [] => ⟨[], [], false⟩
  | (domain, cfgs) :: rest =>
    if matchesDomain q.name domain then
      let s := tryConfigs ex h req cfgs
      if s.ok then s
      else
        let s2 := matchDomainLoop ex h req q rest
        ⟨s.cfgAttempts ++ s2.cfgAttempts, s.writes ++ s2.writes, s2.ok⟩
    else matchDomainLoop ex h req q rest

/-- `(h *Handler) matchDomainConfig(w, req, q)` (dns.go lines 337-348);
returns the "No working match found" error when no matching entry's config
succeeds. -/
def matchDomainConfig (ex : Network) (h : Handler) (req : Msg)
    (q : Question) : ServeOutcome :=
  matchDomainLoop ex h req q h.domainClientConfigs

/-- The per-question loop of `ServeDNS` (dns.go lines 352-356): the first
question whose `matchDomainConfig` succeeds ends the handler. -/
def serveQuestions (ex : Network) (h : Handler) (req : Msg) :
    List Question → ServeOutcome
  | [] => ⟨[], [], false⟩
  | q :: qs =>
    let s := matchDomainConfig ex h req q
    if s.ok then s
    else
      let s2 := serveQuestions ex h req qs
      ⟨s.cfgAttempts ++ s2.cfgAttempts, s.writes ++ s2.writes, s2.ok⟩

/-- The synthesized failure reply of `ServeDNS` (dns.go lines 364-378):
request id and opcode, response flag set, every other flag false,
`Rcode = dns.RcodeServerFailure`; a fresh `dns.Msg` has no questions and
no answers. -/
def failureReply (req : Msg) : Msg :=
  { msgHdr :=
      { id := req.msgHdr.id
        response := true
        opcode := req.msgHdr.opcode
        authoritative := false
        truncated := false
        recursionDesired := false
        recursionAvailable := false
        zero := false
        authenticatedData := false
        checkingDisabled := false
        rcode := RcodeServerFailure }
    question := []
    answer := [] }

/-- `(h *Handler) ServeDNS(w, req)` (dns.go lines 350-379): domain routing
for opcode QUERY/IQUERY, then the default chain, then the synthesized
server-failure reply. -/
def serveDNS (ex : Network) (h : Handler) (req : Msg) : ServeOutcome :=
  let d : ServeOutcome :=
    if req.msgHdr.opcode == OpcodeQuery || req.msgHdr.opcode == OpcodeIQuery then
      serveQuestions ex h req req.question
    else ⟨[], [], false⟩
  if d.ok then d
  else
    let f := tryConfigs ex h req h.defaultClientConfigs
    if f.ok then ⟨d.cfgAttempts ++ f.cfgAttempts, d.writes ++ f.writes, true⟩
    else
      ⟨d.cfgAttempts ++ f.cfgAttempts,
       d.writes ++ f.writes ++ [failureReply req], true⟩

/-- Linear view of the nested client/server loops: scan a list of
`(Net, addr)` attempts, stopping at the first exchange without a
transport error. -/
def scanPlan (ex : Network) (req : Msg) : List (String × String) → ExchangeOutcome
  | [] => ⟨[], [], false⟩
  | p :: rest =>
    match ex p.1 p.2 req with
    | some reply => ⟨[p], [reply], true⟩
    | none =>
      let s := scanPlan ex req rest
      ⟨p :: s.attempts, s.writes, s.ok⟩

/-- The `(Net, addr)` pairs `tryWithConfig` would try, in order: for each
client in slice order, each server in stored order. -/
def attemptPlanClients (cfg : ClientConfig) : List Client → List (String × String)
  | [] => []
  | c :: cs =>
    (cfg.servers.map fun srv => (c.net, srv ++ ":" ++ cfg.port)) ++
      attemptPlanClients cfg cs

theorem tryServers_eq_scanPlan (ex : Network) (req : Msg) (cfg : ClientConfig)
    (client : Client) (ss : List String) :
    tryServers ex req cfg client ss =
      scanPlan ex req (ss.map fun srv => (client.net, srv ++ ":" ++ cfg.port)) := by
  induction ss with
  | nil => rfl
  | cons s rest ih =>
    simp only [tryServers, List.map_cons, scanPlan]
    cases hx : ex client.net (s ++ ":" ++ cfg.port) req <;> simp [hx, ih]

theorem scanPlan_append (ex : Network) (req : Msg) (l1 l2 : List (String × String)) :
    scanPlan ex req (l1 ++ l2) =
      (if (scanPlan ex req l1).ok then scanPlan ex req l1
       else
         ⟨(scanPlan ex req l1).attempts ++ (scanPlan ex req l2).attempts,
          (scanPlan ex req l1).writes ++ (scanPlan ex req l2).writes,
          (scanPlan ex req l2).ok⟩) := by
  induction l1 with
  | nil => simp [scanPlan]
  | cons p rest ih =>
    cases hx : ex p.1 p.2 req with
    | some reply => simp [scanPlan, hx]
    | none =>
      simp only [List.cons_append, scanPlan, hx]
      simp only [List.append_eq]
      rw [ih]
      by_cases hok : (scanPlan ex req rest).ok = true <;> simp [hok]

theorem tryClients_eq_scanPlan (ex : Network) (req : Msg) (cfg : ClientConfig)
    (cs : List Client) :
    tryClients ex req cfg cs = scanPlan ex req (attemptPlanClients cfg cs) := by
  induction cs with
  | nil => rfl
  | cons c rest ih =>
    simp only [tryClients, attemptPlanClients, scanPlan_append,
      tryServers_eq_scanPlan, ih]

theorem scanPlan_all_fail (ex : Network) (req : Msg) (l : List (String × String))
    (hfail : ∀ p ∈ l, ex p.1 p.2 req = none) :
    scanPlan ex req l = ⟨l, [], false⟩ := by
  induction l with
  | nil => rfl
  | cons p rest ih =>
    have hp := hfail p (by simp)
    simp [scanPlan, hp, ih fun q hq => hfail q (by simp [hq])]

theorem scanPlan_first_success (ex : Network) (req : Msg)
    (pre post : List (String × String)) (net addr : String) (r : Msg)
    (hpre : ∀ p ∈ pre, ex p.1 p.2 req = none)
    (hsucc : ex net addr req = some r) :
    scanPlan ex req (pre ++ (net, addr) :: post) = ⟨pre ++ [(net, addr)], [r], true⟩ := by
  induction pre with
  | nil => simp [scanPlan, hsucc]
  | cons p rest ih =>
    have hp := hpre p (by simp)
    simp [scanPlan, hp, ih fun q hq => hpre q (by simp [hq])]

theorem scanPlan_writes (ex : Network) (req : Msg) (l : List (String × String)) :
    ((scanPlan ex req l).ok = true → ∃ m, (scanPlan ex req l).writes = [m]) ∧
    ((scanPlan ex req l).ok = false → (scanPlan ex req l).writes = []) := by
  induction l with
  | nil => simp [scanPlan]
  | cons p rest ih =>
    cases hx : ex p.1 p.2 req <;> simp [scanPlan, hx]
    exact ih

theorem tryWithConfig_writes (ex : Network) (h : Handler) (req : Msg)
    (cfg : ClientConfig) :
    ((tryWithConfig ex h req cfg).ok = true →
      ∃ m, (tryWithConfig ex h req cfg).writes = [m]) ∧
    ((tryWithConfig ex h req cfg).ok = false →
      (tryWithConfig ex h req cfg).writes = []) := by
  unfold tryWithConfig
  rw [tryClients_eq_scanPlan]
  exact scanPlan_writes ex req (attemptPlanClients cfg h.clients)

theorem tryConfigs_writes (ex : Network) (h : Handler) (req : Msg)
    (l : List ClientConfig) :
    ((tryConfigs ex h req l).ok = true → ∃ m, (tryConfigs ex h req l).writes = [m]) ∧
    ((tryConfigs ex h req l).ok = false → (tryConfigs ex h req l).writes = []) := by
  induction l with
  | nil => simp [tryConfigs]
  | cons cfg rest ih =>
    have hw := tryWithConfig_writes ex h req cfg
    cases hok : (tryWithConfig ex h req cfg).ok
    · have hre : (tryWithConfig ex h req cfg).writes = [] := hw.2 hok
      simp [tryConfigs, hok, hre]
      exact ih
    · simp [tryConfigs, hok]
      exact hw.1 hok

theorem matchDomainLoop_writes (ex : Network) (h : Handler) (req : Msg)
    (q : Question) (l : List (String × List ClientConfig)) :
    ((matchDomainLoop ex h req q l).ok = true →
      ∃ m, (matchDomainLoop ex h req q l).writes = [m]) ∧
    ((matchDomainLoop ex h req q l).ok = false →
      (matchDomainLoop ex h req q l).writes = []) := by
  induction l with
  | nil => simp [matchDomainLoop]
  | cons e rest ih =>
    by_cases hm : matchesDomain q.name e.1 = true
    · have hw := tryConfigs_writes ex h req e.2
      cases hok : (tryConfigs ex h req e.2).ok
      · have hre := hw.2 hok
        simp [matchDomainLoop, hm, hok, hre]
        exact ih
      · simp [matchDomainLoop, hm, hok]
        exact hw.1 hok
    · simp only [Bool.not_eq_true] at hm
      simp [matchDomainLoop, hm]
      exact ih

theorem matchDomainConfig_writes (ex : Network) (h : Handler) (req : Msg)
    (q : Question) :
    ((matchDomainConfig ex h req q).ok = true →
      ∃ m, (matchDomainConfig ex h req q).writes = [m]) ∧
    ((matchDomainConfig ex h req q).ok = false →
      (matchDomainConfig ex h req q).writes = []) := by
  unfold matchDomainConfig
  exact matchDomainLoop_writes ex h req q h.domainClientConfigs

theorem serveQuestions_writes (ex : Network) (h : Handler) (req : Msg)
    (qs : List Question) :
    ((serveQuestions ex h req qs).ok = true →
      ∃ m, (serveQuestions ex h req qs).writes = [m]) ∧
    ((serveQuestions ex h req qs).ok = false →
      (serveQuestions ex h req qs).writes = []) := by
  induction qs with
  | nil => simp [serveQuestions]
  | cons q rest ih =>
    have hw := matchDomainConfig_writes ex h req q
    cases hok : (matchDomainConfig ex h req q).ok
    · have hre := hw.2 hok
      simp [serveQuestions, hok, hre]
      exact ih
    · simp [serveQuestions, hok]
      exact hw.1 hok

/-- C10: one `ServeDNS` invocation writes exactly one message to the
response writer: the first successful upstream reply, or the synthesized
server-failure reply; never zero and never more than one. -/
theorem serveDNS_writes_exactly_one (ex : Network) (h : Handler) (req : Msg) :
    ∃ m, (serveDNS ex h req).writes = [m] := by
  unfold serveDNS
  by_cases hg : (req.msgHdr.opcode == OpcodeQuery || req.msgHdr.opcode == OpcodeIQuery) = true
  · simp only [hg, if_true]
    have hd := serveQuestions_writes ex h req req.question
    cases hdok : (serveQuestions ex h req req.question).ok
    · have hdw := hd.2 hdok
      have hf := tryConfigs_writes ex h req h.defaultClientConfigs
      cases hfok : (tryConfigs ex h req h.defaultClientConfigs).ok
      · have hfw := hf.2 hfok
        simp [hdok, hfok, hdw, hfw]
      · obtain ⟨m, hm⟩ := hf.1 hfok
        exact ⟨m, by simp [hdok, hfok, hdw, hm]⟩
    · obtain ⟨m, hm⟩ := hd.1 hdok
      exact ⟨m, by simp [hdok, hm]⟩
  · simp only [Bool.not_eq_true] at hg
    simp only [hg, Bool.false_eq_true, if_false]
    have hf := tryConfigs_writes ex h req h.defaultClientConfigs
    cases hfok : (tryConfigs ex h req h.defaultClientConfigs).ok
    · have hfw := hf.2 hfok
      simp [hfok, hfw]
    · obtain ⟨m, hm⟩ := hf.1 hfok
      exact ⟨m, by simp [hfok, hm]⟩

theorem attemptPlan_stdClients (cfg : ClientConfig) :
    attemptPlanClients cfg stdClients =
      (cfg.servers.map fun srv => ("", srv ++ ":" ++ cfg.port)) ++
        (cfg.servers.map fun srv => ("tcp", srv ++ ":" ++ cfg.port)) := by
  simp [attemptPlanClients, stdClients]

/-- C4: for a handler built by `newHandler` (clients UDP then TCP),
`tryWithConfig` walks the fixed attempt list "every server over UDP in
stored order, then every server over TCP in stored order"; the first
attempt without a transport-level error has its reply written verbatim
(whatever its DNS response code, e.g. NXDOMAIN) and nothing after it is
attempted; if every attempt fails the call errs having tried them all. -/
theorem tryWithConfig_udp_then_tcp (ex : Network) (h : Handler) (req : Msg)
    (cfg : ClientConfig) (hcl : h.clients = stdClients) :
    (∀ (pre post : List (String × String)) (net addr : String) (r : Msg),
        (cfg.servers.map fun srv => ("", srv ++ ":" ++ cfg.port)) ++
            (cfg.servers.map fun srv => ("tcp", srv ++ ":" ++ cfg.port)) =
          pre ++ (net, addr) :: post →
        (∀ p ∈ pre, ex p.1 p.2 req = none) →
        ex net addr req = some r →
        tryWithConfig ex h req cfg = ⟨pre ++ [(net, addr)], [r], true⟩) ∧
    ((∀ p ∈ (cfg.servers.map fun srv => ("", srv ++ ":" ++ cfg.port)) ++
            (cfg.servers.map fun srv => ("tcp", srv ++ ":" ++ cfg.port)),
        ex p.1 p.2 req = none) →
      tryWithConfig ex h req cfg =
        ⟨(cfg.servers.map fun srv => ("", srv ++ ":" ++ cfg.port)) ++
            (cfg.servers.map fun srv => ("tcp", srv ++ ":" ++ cfg.port)),
          [], false⟩) := by
  constructor
  · intro pre post net addr r hplan hpre hsucc
    unfold tryWithConfig
    rw [hcl, tryClients_eq_scanPlan, attemptPlan_stdClients, hplan]
    exact scanPlan_first_success ex req pre post net addr r hpre hsucc
  · intro hfail
    unfold tryWithConfig
    rw [hcl, tryClients_eq_scanPlan, attemptPlan_stdClients]
    exact scanPlan_all_fail ex req _ hfail

theorem tryConfigs_all_fail (ex : Network) (h : Handler) (req : Msg)
    (hfail : ∀ n a m, ex n a m = none) (l : List ClientConfig) :
    tryConfigs ex h req l = ⟨l, [], false⟩ := by
  induction l with
  | nil => rfl
  | cons cfg rest ih =>
    have hc : tryWithConfig ex h req cfg =
        ⟨attemptPlanClients cfg h.clients, [], false⟩ := by
      unfold tryWithConfig
      rw [tryClients_eq_scanPlan]
      exact scanPlan_all_fail ex req _ fun p _ => hfail p.1 p.2 req
    simp [tryConfigs, hc, ih]

theorem matchDomainLoop_all_fail (ex : Network) (h : Handler) (req : Msg)
    (q : Question) (hfail : ∀ n a m, ex n a m = none)
    (l : List (String × List ClientConfig)) :
    (matchDomainLoop ex h req q l).ok = false ∧
    (matchDomainLoop ex h req q l).writes = [] := by
  induction l with
  | nil => simp [matchDomainLoop]
  | cons e rest ih =>
    obtain ⟨d, dcfgs⟩ := e
    by_cases hm : matchesDomain q.name d = true
    · simp [matchDomainLoop, hm, tryConfigs_all_fail ex h req hfail dcfgs, ih]
    · simp only [Bool.not_eq_true] at hm
      simp [matchDomainLoop, hm, ih]

theorem serveQuestions_all_fail (ex : Network) (h : Handler) (req : Msg)
    (hfail : ∀ n a m, ex n a m = none) (qs : List Question) :
    (serveQuestions ex h req qs).ok = false ∧
    (serveQuestions ex h req qs).writes = [] := by
  induction qs with
  | nil => simp [serveQuestions]
  | cons q rest ih =>
    have hq := matchDomainLoop_all_fail ex h req q hfail h.domainClientConfigs
    have hq' : (matchDomainConfig ex h req q).ok = false ∧
        (matchDomainConfig ex h req q).writes = [] := hq
    simp [serveQuestions, hq'.1, hq'.2, ih]

/-- C2: when every upstream exchange fails at the transport level (so every
attempted resolver group, domain-scoped and default, fails), `ServeDNS`
writes exactly one synthesized reply: the request's id and opcode, response
flag set, recursion-available false, response code server-failure. -/
theorem serveDNS_exhausted_servfail (ex : Network) (h : Handler) (req : Msg)
    (hfail : ∀ n a m, ex n a m = none) :
    (serveDNS ex h req).writes = [failureReply req] ∧
    (failureReply req).msgHdr.id = req.msgHdr.id ∧
    (failureReply req).msgHdr.opcode = req.msgHdr.opcode ∧
    (failureReply req).msgHdr.response = true ∧
    (failureReply req).msgHdr.recursionAvailable = false ∧
    (failureReply req).msgHdr.rcode = RcodeServerFailure := by
  refine ⟨?_, rfl, rfl, rfl, rfl, rfl⟩
  have hf := tryConfigs_all_fail ex h req hfail h.defaultClientConfigs
  unfold serveDNS
  by_cases hg : (req.msgHdr.opcode == OpcodeQuery ||
      req.msgHdr.opcode == OpcodeIQuery) = true
  · have hq := serveQuestions_all_fail ex h req hfail req.question
    simp [hg, hq.1, hq.2, hf]
  · simp only [Bool.not_eq_true] at hg
    simp [hg, hf]

theorem tryConfigs_not_ok_attempts (ex : Network) (h : Handler) (req : Msg)
    (l : List ClientConfig) (hok : (tryConfigs ex h req l).ok = false) :
    (tryConfigs ex h req l).cfgAttempts = l := by
  induction l with
  | nil => rfl
  | cons cfg rest ih =>
    cases hc : (tryWithConfig ex h req cfg).ok with
    | true =>
      exfalso
      simp [tryConfigs, hc] at hok
    | false =>
      simp only [tryConfigs, hc, Bool.false_eq_true, if_false] at hok ⊢
      simp only [List.cons.injEq, true_and]
      exact ih hok

theorem matchDomainLoop_not_ok_covers (ex : Network) (h : Handler) (req : Msg)
    (q : Question) (l : List (String × List ClientConfig))
    (hok : (matchDomainLoop ex h req q l).ok = false) :
    ∀ dom cfgs, (dom, cfgs) ∈ l → matchesDomain q.name dom = true →
      ∀ cfg ∈ cfgs, cfg ∈ (matchDomainLoop ex h req q l).cfgAttempts := by
  induction l with
  | nil =>
    intro dom cfgs hmem
    cases hmem
  | cons e rest ih =>
    obtain ⟨d, dcfgs⟩ := e
    intro dom cfgs hmem hmatch cfg hcfg
    by_cases hm : matchesDomain q.name d = true
    · cases hs : (tryConfigs ex h req dcfgs).ok with
      | true =>
        exfalso
        simp [matchDomainLoop, hm, hs] at hok
      | false =>
        have hrest : (matchDomainLoop ex h req q rest).ok = false := by
          simpa [matchDomainLoop, hm, hs] using hok
        have hatt : (matchDomainLoop ex h req q ((d, dcfgs) :: rest)).cfgAttempts =
            (tryConfigs ex h req dcfgs).cfgAttempts ++
              (matchDomainLoop ex h req q rest).cfgAttempts := by
          simp [matchDomainLoop, hm, hs]
        rw [hatt, List.mem_append]
        rcases List.mem_cons.mp hmem with heq | hmem'
        · left
          rw [Prod.mk.injEq] at heq
          obtain ⟨hd, hcs⟩ := heq
          subst hcs
          rw [tryConfigs_not_ok_attempts ex h req cfgs hs]
          exact hcfg
        · right
          exact ih hrest dom cfgs hmem' hmatch cfg hcfg
    · have hskip : matchDomainLoop ex h req q ((d, dcfgs) :: rest) =
          matchDomainLoop ex h req q rest := by
        simp only [Bool.not_eq_true] at hm
        simp [matchDomainLoop, hm]
      rcases List.mem_cons.mp hmem with heq | hmem'
      · exfalso
        rw [Prod.mk.injEq] at heq
        exact hm (heq.1 ▸ hmatch)
      · rw [hskip]
        exact ih (hskip ▸ hok) dom cfgs hmem' hmatch cfg hcfg

theorem serveQuestions_not_ok_covers (ex : Network) (h : Handler) (req : Msg)
    (qs : List Question) (hok : (serveQuestions ex h req qs).ok = false) :
    ∀ q ∈ qs, ∀ dom cfgs, (dom, cfgs) ∈ h.domainClientConfigs →
      matchesDomain q.name dom = true → ∀ cfg ∈ cfgs,
        cfg ∈ (serveQuestions ex h req qs).cfgAttempts := by
  induction qs with
  | nil =>
    intro q hq
    cases hq
  | cons q0 rest ih =>
    intro q hq dom cfgs hmem hmatch cfg hcfg
    cases hs : (matchDomainConfig ex h req q0).ok with
    | true =>
      exfalso
      simp [serveQuestions, hs] at hok
    | false =>
      have hrest : (serveQuestions ex h req rest).ok = false := by
        simpa [serveQuestions, hs] using hok
      have hatt : (serveQuestions ex h req (q0 :: rest)).cfgAttempts =
          (matchDomainConfig ex h req q0).cfgAttempts ++
            (serveQuestions ex h req rest).cfgAttempts := by
        simp [serveQuestions, hs]
      rw [hatt, List.mem_append]
      rcases List.mem_cons.mp hq with rfl | hq'
      · left
        exact matchDomainLoop_not_ok_covers ex h req q h.domainClientConfigs hs
          dom cfgs hmem hmatch cfg hcfg
      · right
        exact ih hrest q hq' dom cfgs hmem hmatch cfg hcfg

/-- C3: for a QUERY or inverse-QUERY request, the domain-scoped step runs
first and alone while it succeeds; and whenever the default chain gets
attempted at all, the attempt trace is the domain-step attempts followed by
the default-chain attempts, with every resolver group scoped to a suffix
matching any question already among the domain-step attempts — i.e. every
matching scoped group is attempted before any default-chain group. -/
theorem serveDNS_domain_before_default (ex : Network) (h : Handler) (req : Msg)
    (hop : req.msgHdr.opcode = OpcodeQuery ∨ req.msgHdr.opcode = OpcodeIQuery) :
    ((serveQuestions ex h req req.question).ok = true →
      serveDNS ex h req = serveQuestions ex h req req.question) ∧
    ((serveQuestions ex h req req.question).ok = false →
      (serveDNS ex h req).cfgAttempts =
        (serveQuestions ex h req req.question).cfgAttempts ++
          (tryConfigs ex h req h.defaultClientConfigs).cfgAttempts ∧
      (∀ q ∈ req.question, ∀ dom cfgs, (dom, cfgs) ∈ h.domainClientConfigs →
        matchesDomain q.name dom = true → ∀ cfg ∈ cfgs,
          cfg ∈ (serveQuestions ex h req req.question).cfgAttempts)) := by
  have hg : (req.msgHdr.opcode == OpcodeQuery ||
      req.msgHdr.opcode == OpcodeIQuery) = true := by
    rcases hop with h1 | h1 <;> simp [h1, OpcodeQuery, OpcodeIQuery]
  constructor
  · intro hd
    unfold serveDNS
    simp [hg, hd]
  · intro hd
    refine ⟨?_, serveQuestions_not_ok_covers ex h req req.question hd⟩
    unfold serveDNS
    simp only [hg, if_true]
    cases hf : (tryConfigs ex h req h.defaultClientConfigs).ok <;> simp [hd, hf]

theorem tryWithConfig_clients_congr (ex : Network) (req : Msg)
    (cfg : ClientConfig) (h h' : Handler) (hc : h.clients = h'.clients) :
    tryWithConfig ex h req cfg = tryWithConfig ex h' req cfg := by
  unfold tryWithConfig
  rw [hc]

theorem tryConfigs_clients_congr (ex : Network) (req : Msg) (h h' : Handler)
    (hc : h.clients = h'.clients) (l : List ClientConfig) :
    tryConfigs ex h req l = tryConfigs ex h' req l := by
  induction l with
  | nil => rfl
  | cons cfg rest ih =>
    simp [tryConfigs, tryWithConfig_clients_congr ex req cfg h h' hc, ih]

/-- C9: the domain-scoped routing step runs exactly for opcodes QUERY and
inverse-QUERY.  For those opcodes `ServeDNS` is the domain step followed, on
failure, by the default chain and the synthesized failure; for every other
opcode it skips straight to the default chain (the domain table is
irrelevant: emptying it changes nothing) and, if that is exhausted, to the
synthesized server-failure reply. -/
theorem serveDNS_opcode_gate (ex : Network) (h : Handler) (req : Msg) :
    ((req.msgHdr.opcode = OpcodeQuery ∨ req.msgHdr.opcode = OpcodeIQuery) →
      serveDNS ex h req =
        (if (serveQuestions ex h req req.question).ok then
          serveQuestions ex h req req.question
         else if (tryConfigs ex h req h.defaultClientConfigs).ok then
          ⟨(serveQuestions ex h req req.question).cfgAttempts ++
              (tryConfigs ex h req h.defaultClientConfigs).cfgAttempts,
            (serveQuestions ex h req req.question).writes ++
              (tryConfigs ex h req h.defaultClientConfigs).writes, true⟩
         else
          ⟨(serveQuestions ex h req req.question).cfgAttempts ++
              (tryConfigs ex h req h.defaultClientConfigs).cfgAttempts,
            (serveQuestions ex h req req.question).writes ++
              (tryConfigs ex h req h.defaultClientConfigs).writes ++
                [failureReply req], true⟩)) ∧
    (req.msgHdr.opcode ≠ OpcodeQuery → req.msgHdr.opcode ≠ OpcodeIQuery →
      serveDNS ex h req =
        serveDNS ex { h with domainClientConfigs := [] } req ∧
      serveDNS ex h req =
        (if (tryConfigs ex h req h.defaultClientConfigs).ok then
          ⟨(tryConfigs ex h req h.defaultClientConfigs).cfgAttempts,
            (tryConfigs ex h req h.defaultClientConfigs).writes, true⟩
         else
          ⟨(tryConfigs ex h req h.defaultClientConfigs).cfgAttempts,
            (tryConfigs ex h req h.defaultClientConfigs).writes ++
              [failureReply req], true⟩)) := by
  constructor
  · intro hop
    have hg : (req.msgHdr.opcode == OpcodeQuery ||
        req.msgHdr.opcode == OpcodeIQuery) = true := by
      rcases hop with h1 | h1 <;> simp [h1, OpcodeQuery, OpcodeIQuery]
    unfold serveDNS
    simp only [hg, if_true]
  · intro hne1 hne2
    have hgf : (req.msgHdr.opcode == OpcodeQuery ||
        req.msgHdr.opcode == OpcodeIQuery) = false := by
      simp [hne1, hne2]
    have hone : ∀ h' : Handler, h'.clients = h.clients →
        h'.defaultClientConfigs = h.defaultClientConfigs →
        serveDNS ex h' req =
          (if (tryConfigs ex h req h.defaultClientConfigs).ok then
            ⟨(tryConfigs ex h req h.defaultClientConfigs).cfgAttempts,
              (tryConfigs ex h req h.defaultClientConfigs).writes, true⟩
           else
            ⟨(tryConfigs ex h req h.defaultClientConfigs).cfgAttempts,
              (tryConfigs ex h req h.defaultClientConfigs).writes ++
                [failureReply req], true⟩) := by
      intro h' hc hd
      unfold serveDNS
      rw [hd, tryConfigs_clients_congr ex req h' h hc]
      cases hf : (tryConfigs ex h req h.defaultClientConfigs).ok <;>
        simp [hgf, hf]
    exact ⟨by rw [hone h rfl rfl, hone { h with domainClientConfigs := [] } rfl rfl],
      hone h rfl rfl⟩

/-- Oracle in which every exchange fails at the transport level. -/
def exAllFail : Network := fun _ _ _ => none

def cfgInternal : ClientConfig := { servers := ["10.0.0.53"], port := "53" }

def cfgDefaultW : ClientConfig := { servers := ["8.8.8.8"], port := "53" }

/-- Concrete handler: one domain scope `internal.corp`, one default group. -/
def hRouteW : Handler :=
  { domainClientConfigs := [("internal.corp", [cfgInternal])]
    defaultClientConfigs := [cfgDefaultW]
    clients := stdClients }

/-- Concrete QUERY request for `db.internal.corp.`. -/
def reqQueryW : Msg :=
  { msgHdr :=
      { id := 7, response := false, opcode := OpcodeQuery, authoritative := false,
        truncated := false, recursionDesired := true, recursionAvailable := false,
        zero := false, authenticatedData := false, checkingDisabled := false,
        rcode := 0 }
    question := [{ name := "db.internal.corp.", qtype := 1, qclass := 1 }]
    answer := [] }

/-- The same request with a non-query opcode (NOTIFY). -/
def reqNotifyW : Msg :=
  { reqQueryW with msgHdr := { reqQueryW.msgHdr with opcode := OpcodeNotify } }

/-- Witness for C2 at a concrete handler, request and all-failing network. -/
theorem serveDNS_exhausted_servfail_witness :
    (serveDNS exAllFail hRouteW reqQueryW).writes = [failureReply reqQueryW] ∧
    (failureReply reqQueryW).msgHdr.id = reqQueryW.msgHdr.id ∧
    (failureReply reqQueryW).msgHdr.opcode = reqQueryW.msgHdr.opcode ∧
    (failureReply reqQueryW).msgHdr.response = true ∧
    (failureReply reqQueryW).msgHdr.recursionAvailable = false ∧
    (failureReply reqQueryW).msgHdr.rcode = RcodeServerFailure :=
  serveDNS_exhausted_servfail exAllFail hRouteW reqQueryW fun _ _ _ => rfl

/-- Witness for C3 at a concrete handler and matching QUERY request. -/
theorem serveDNS_domain_before_default_witness :
    ((serveQuestions exAllFail hRouteW reqQueryW reqQueryW.question).ok = true →
      serveDNS exAllFail hRouteW reqQueryW =
        serveQuestions exAllFail hRouteW reqQueryW reqQueryW.question) ∧
    ((serveQuestions exAllFail hRouteW reqQueryW reqQueryW.question).ok = false →
      (serveDNS exAllFail hRouteW reqQueryW).cfgAttempts =
        (serveQuestions exAllFail hRouteW reqQueryW reqQueryW.question).cfgAttempts ++
          (tryConfigs exAllFail hRouteW reqQueryW
            hRouteW.defaultClientConfigs).cfgAttempts ∧
      (∀ q ∈ reqQueryW.question, ∀ dom cfgs,
        (dom, cfgs) ∈ hRouteW.domainClientConfigs →
        matchesDomain q.name dom = true → ∀ cfg ∈ cfgs,
          cfg ∈ (serveQuestions exAllFail hRouteW reqQueryW
            reqQueryW.question).cfgAttempts)) :=
  serveDNS_domain_before_default exAllFail hRouteW reqQueryW (Or.inl rfl)

/-- Witness for C9: a NOTIFY request ignores the domain table; a QUERY
request runs the domain step first. -/
theorem serveDNS_opcode_gate_witness :
    serveDNS exAllFail hRouteW reqNotifyW =
      serveDNS exAllFail { hRouteW with domainClientConfigs := [] } reqNotifyW ∧
    serveDNS exAllFail hRouteW reqQueryW =
      (if (serveQuestions exAllFail hRouteW reqQueryW reqQueryW.question).ok then
        serveQuestions exAllFail hRouteW reqQueryW reqQueryW.question
       else if (tryConfigs exAllFail hRouteW reqQueryW
          hRouteW.defaultClientConfigs).ok then
        ⟨(serveQuestions exAllFail hRouteW reqQueryW reqQueryW.question).cfgAttempts ++
            (tryConfigs exAllFail hRouteW reqQueryW
              hRouteW.defaultClientConfigs).cfgAttempts,
          (serveQuestions exAllFail hRouteW reqQueryW reqQueryW.question).writes ++
            (tryConfigs exAllFail hRouteW reqQueryW
              hRouteW.defaultClientConfigs).writes, true⟩
       else
        ⟨(serveQuestions exAllFail hRouteW reqQueryW reqQueryW.question).cfgAttempts ++
            (tryConfigs exAllFail hRouteW reqQueryW
              hRouteW.defaultClientConfigs).cfgAttempts,
          (serveQuestions exAllFail hRouteW reqQueryW reqQueryW.question).writes ++
            (tryConfigs exAllFail hRouteW reqQueryW
              hRouteW.defaultClientConfigs).writes ++
              [failureReply reqQueryW], true⟩) :=
  ⟨((serveDNS_opcode_gate exAllFail hRouteW reqNotifyW).2
      (by decide) (by decide)).1,
    (serveDNS_opcode_gate exAllFail hRouteW reqQueryW).1 (Or.inl rfl)⟩

def cfgTwoW : ClientConfig := { servers := ["10.0.0.1", "10.0.0.2"], port := "53" }

/-- A reply carrying the NXDOMAIN response code. -/
def nxReplyW : Msg :=
  { msgHdr :=
      { id := 7, response := true, opcode := OpcodeQuery, authoritative := false,
        truncated := false, recursionDesired := true, recursionAvailable := true,
        zero := false, authenticatedData := false, checkingDisabled := false,
        rcode := RcodeNameError }
    question := [{ name := "db.internal.corp.", qtype := 1, qclass := 1 }]
    answer := [] }

/-- Oracle: the first UDP address times out, the second answers NXDOMAIN. -/
def exSecondW : Network := fun net addr _ =>
  if net == "" && addr == "10.0.0.2:53" then some nxReplyW else none

/-- Witness for C4: first UDP address fails, second succeeds with an
NXDOMAIN payload; the payload is relayed as the single write and no TCP
attempt happens. -/
theorem tryWithConfig_udp_then_tcp_witness :
    tryWithConfig exSecondW hRouteW reqQueryW cfgTwoW =
      ⟨[("", "10.0.0.1:53"), ("", "10.0.0.2:53")], [nxReplyW], true⟩ :=
  (tryWithConfig_udp_then_tcp exSecondW hRouteW reqQueryW cfgTwoW rfl).1
    [("", "10.0.0.1:53")]
    [("tcp", "10.0.0.1:53"), ("tcp", "10.0.0.2:53")]
    "" "10.0.0.2:53" nxReplyW (by decide) (by decide) (by decide)

/-- A platform split-DNS entry (`scutil.Resolver` from
`johnstarich/go/dns/scutil`): domain scope, nameserver list, ordering
hint, and the result of the `Reachable()` flag accessor. -/
structure ScResolver where
  domain : String
  nameservers : List String
  order : Int
  reachable : Bool
deriving Repr, DecidableEq

/-- `scutil.Config`: the resolver entries reported by the platform. -/
structure ScConfig where
  resolvers : List ScResolver
deriving Repr, DecidableEq

/-- The comparator handed to `sort.Slice` in `newHandler` (dns.go lines
300-303): `(resolvers[i].Domain != "" && resolvers[j].Domain == "") ||
resolvers[i].Order < resolvers[j].Order`.  It is not transitive. -/
def scResolverLess (x y : ScResolver) : Bool :=
  (!(x.domain == "") && (y.domain == "")) || decide (x.order < y.order)

/-- One step of insertion sort exactly as Go performs it: the new element
bubbles left past the longest suffix of the already-placed prefix whose
every element compares greater (`less x z = true`), stopping at the first
element (from the right) for which the comparison fails. -/
def goInsert (less : ScResolver → ScResolver → Bool) (x : ScResolver) :
    List ScResolver → List ScResolver
  | [] => [x]
  | y :: ys =>
    if (y :: ys).all fun z => less x z then x :: y :: ys
    else y :: goInsert less x ys

/-- Go's `sort.Slice` on slices of fewer than 7 elements: every Go release
runs plain insertion sort below that length (modern `pdqsort` switches to
insertion sort for ranges of at most 12, the older `quickSort` for at most
12 with a gap-6 shell pass that is a no-op below 7), so for the short
slices evaluated here this is exactly the Go behavior — which matters
because the comparator above is not a strict weak order, making the
algorithm observable. -/
def goSortSlice (less : ScResolver → ScResolver → Bool)
    (l : List ScResolver) : List ScResolver :=
  l.foldl (fun acc x => goInsert less x acc) []

/-- The filter-and-sort step of `newHandler` (dns.go lines 293-303):
discard entries whose `Reachable()` is false, then `sort.Slice` with
`scResolverLess`. -/
def discoverResolvers (scResolvers : List ScResolver) : List ScResolver :=
  goSortSlice scResolverLess (scResolvers.filter fun r => r.reachable)

/-- `newStaticClientConfig` (dns.go lines 256-263): renders one
`nameserver <ip>` line per address and re-parses them with
`dns.ClientConfigFromReader`.  That parser collects the second field of
each `nameserver` line into `Servers`, defaults `Port` to `"53"`, and
returns a non-nil error only when the underlying reader fails — which a
`strings.Reader` never does.  For whitespace-free address strings (all
inputs that occur) the round trip succeeds with exactly the given servers
and port 53. -/
def newStaticClientConfig (ips : List String) : Except String ClientConfig :=
  .ok { servers := ips, port := "53" }

/-- `h.domainClientConfigs[r.Domain] = append(.., cc)` on the association
list modelling the Go map. -/
def mapAppend (m : List (String × List ClientConfig)) (k : String)
    (cc : ClientConfig) : List (String × List ClientConfig) :=
  match m with
  | [] => [(k, [cc])]
  | (k', v) :: rest =>
    if k' == k then (k', v ++ [cc]) :: rest
    else (k', v) :: mapAppend rest k cc

/-- The partition loop of `newHandler` (dns.go lines 304-317): unscoped
entries extend the default chain, scoped entries extend their domain's
list; a `newStaticClientConfig` error would abort `newHandler`. -/
def addResolvers (h : Handler) : List ScResolver → Except String Handler
  | [] => .ok h
  | r :: rest =>
    match newStaticClientConfig r.nameservers with
    | .error e => .error e
    | .ok cc =>
      if r.domain == "" then
        addResolvers
          { h with defaultClientConfigs := h.defaultClientConfigs ++ [cc] } rest
      else
        addResolvers
          { h with domainClientConfigs :=
              mapAppend h.domainClientConfigs r.domain cc } rest

/-- `newHandler` (dns.go lines 265-320).  The two I/O layers are passed in
as results: `scutilResult` for `scutil.ReadMacOSDNS` and `resolvConfResult`
for `dns.ClientConfigFromFile("/etc/resolv.conf")`. -/
def newHandler (scutilResult : Except String ScConfig)
    (resolvConfResult : Except String ClientConfig) : Except String Handler :=
  let h0 : Handler :=
    { domainClientConfigs := [], defaultClientConfigs := [], clients := stdClients }
  match scutilResult with
  | .error _ =>
    match resolvConfResult with
    | .ok cc => .ok { h0 with defaultClientConfigs := [cc] }
    | .error _ =>
      match newStaticClientConfig ["8.8.8.8", "1.1.1.1"] with
      | .ok cc => .ok { h0 with defaultClientConfigs := [cc] }
      | .error e => .error e
  | .ok scConfig => addResolvers h0 (discoverResolvers scConfig.resolvers)

/-- C6: when the platform split-DNS facility errors and the resolver file
is missing or unparsable, `newHandler` succeeds (non-fatally) with an empty
domain table and a default chain of exactly one unscoped group holding
8.8.8.8 and 1.1.1.1. -/
theorem newHandler_static_fallback (e1 e2 : String) :
    newHandler (.error e1) (.error e2) =
      .ok { domainClientConfigs := []
            defaultClientConfigs :=
              [{ servers := ["8.8.8.8", "1.1.1.1"], port := "53" }]
            clients := stdClients } := rfl

theorem addResolvers_total (l : List ScResolver) (h : Handler) :
    ∃ h', addResolvers h l = .ok h' := by
  induction l generalizing h with
  | nil => exact ⟨h, rfl⟩
  | cons r rest ih =>
    simp only [addResolvers, newStaticClientConfig]
    by_cases hd : r.domain == "" <;> simp only [hd, if_true, if_false] <;> apply ih

theorem newHandler_total (sc : Except String ScConfig)
    (rc : Except String ClientConfig) : ∃ h', newHandler sc rc = .ok h' := by
  cases sc with
  | error e =>
    cases rc with
    | ok cc => exact ⟨_, rfl⟩
    | error e2 => exact ⟨_, rfl⟩
  | ok c =>
    exact addResolvers_total (discoverResolvers c.resolvers) _

/-- One `dns.Server`'s liveness state. -/
structure DNSServer where
  running : Bool
deriving Repr, DecidableEq

/-- `(srv *dns.Server) Shutdown()` of `miekg/dns`: stops a started server;
on a server not started (or already stopped) it changes nothing and
returns the "server not started" error. -/
def dnsServerShutdown (s : DNSServer) : DNSServer × Option String :=
  if s.running then ({ running := false }, none)
  else (s, some "dns: server not started")

/-- The `Server` handle returned by `StartDNS` (dns.go lines 242-245):
`udp`/`tcp` are nil when the transport was never started. -/
structure Server where
  udp : Option DNSServer
  tcp : Option DNSServer
deriving Repr, DecidableEq

/-- `(s *Server) Shutdown()` (dns.go lines 247-254): call the underlying
shutdown on each non-nil listener and discard its error with `_ =`; the
method itself returns nothing, so it has no error path. -/
def Server.Shutdown (s : Server) : Server :=
  { udp := s.udp.map fun u => (dnsServerShutdown u).1
    tcp := s.tcp.map fun t => (dnsServerShutdown t).1 }

/-- The two port fields of `HostAgent` read by `StartDNS`. -/
structure HostAgent where
  udpDNSLocalPort : Int
  tcpDNSLocalPort : Int
deriving Repr, DecidableEq

/-- Observable outcome of `StartDNS`: the Go signature is
`(*Server, error)`, but the only error branch executes `panic(err)`, so the
outcomes are a returned handle (always with nil error) or a panic. -/
inductive StartOutcome where
  | ok (s : Server)
  | panicked (e : String)
deriving Repr, DecidableEq

/-- `(a *HostAgent) StartDNS()` (dns.go lines 381-408): build the handler —
panicking if that errs — then start one listener per transport whose port
is positive.  The `ListenAndServe` goroutines and their bind-failure panics
are concurrent behavior outside this embedding; a started listener is
modelled as running. -/
def StartDNS (a : HostAgent) (scutilResult : Except String ScConfig)
    (resolvConfResult : Except String ClientConfig) : StartOutcome :=
  match newHandler scutilResult resolvConfResult with
  | .error e => .panicked e
  | .ok _ =>
    .ok { udp := if a.udpDNSLocalPort > 0 then some { running := true } else none
          tcp := if a.tcpDNSLocalPort > 0 then some { running := true } else none }

/-- C5: for every pair of ports and every discovery outcome, `StartDNS`
hands a server handle to its caller and never surfaces an error: the final
static fallback layer cannot fail, so `newHandler` is total and the fatal
construction branch (which would panic rather than return) is unreachable;
the claim's error case — possible only on total configuration-discovery
failure — is vacuous, and no other outcome crosses the boundary. -/
theorem startDNS_returns_handle (a : HostAgent)
    (sc : Except String ScConfig) (rc : Except String ClientConfig) :
    (∃ srv : Server, StartDNS a sc rc = .ok srv) ∧
    ∀ e, StartDNS a sc rc ≠ .panicked e := by
  obtain ⟨h', hh⟩ := newHandler_total sc rc
  constructor
  · refine ⟨{ udp := if a.udpDNSLocalPort > 0 then some { running := true } else none
              tcp := if a.tcpDNSLocalPort > 0 then some { running := true } else none },
      ?_⟩
    simp [StartDNS, hh]
  · intro e hcon
    simp [StartDNS, hh] at hcon

/-- Whether an entry declares a non-empty domain scope. -/
def hasScope (r : ScResolver) : Bool := !(r.domain == "")

/-- Adjacent-pairs check that the ordering hints are ascending. -/
def ordersAscending : List ScResolver → Bool
  | [] => true
  | [_] => true
  | x :: y :: rest => decide (x.order ≤ y.order) && ordersAscending (y :: rest)

/-- The shape C8 claims of the sorted entries: scoped entries and unscoped
entries form two contiguous classes (in either order), each ascending in
the platform ordering hint. -/
def twoClassSorted (l : List ScResolver) : Bool :=
  (l == l.filter hasScope ++ l.filter (fun r => !(hasScope r)) ||
    l == l.filter (fun r => !(hasScope r)) ++ l.filter hasScope) &&
  ordersAscending (l.filter hasScope) &&
  ordersAscending (l.filter fun r => !(hasScope r))

/-- C8 evaluation at the failing input: the comparator of dns.go lines
300-303 is not transitive (an unscoped low-order entry and a scoped entry
each compare "less" than the other), so the sort interleaves the two
classes: three reachable entries — scoped order 3, unscoped order 1,
scoped order 2 — come out scoped, unscoped, scoped. -/
theorem discoverResolvers_interleaves_classes :
    discoverResolvers
        [{ domain := "a", nameservers := ["10.0.0.1"], order := 3, reachable := true },
         { domain := "", nameservers := ["10.0.0.2"], order := 1, reachable := true },
         { domain := "a", nameservers := ["10.0.0.3"], order := 2, reachable := true }] =
      [{ domain := "a", nameservers := ["10.0.0.3"], order := 2, reachable := true },
       { domain := "", nameservers := ["10.0.0.2"], order := 1, reachable := true },
       { domain := "a", nameservers := ["10.0.0.1"], order := 3, reachable := true }] ∧
    twoClassSorted (discoverResolvers
        [{ domain := "a", nameservers := ["10.0.0.1"], order := 3, reachable := true },
         { domain := "", nameservers := ["10.0.0.2"], order := 1, reachable := true },
         { domain := "a", nameservers := ["10.0.0.3"], order := 2, reachable := true }])
      = false := by
  decide

theorem dnsServerShutdown_stopped (u : DNSServer) :
    (dnsServerShutdown u).1 = { running := false } := by
  cases u with
  | mk running => cases running <;> simp [dnsServerShutdown]

/-- C7: `Server.Shutdown` is total (the Go method returns nothing and
discards the listeners' shutdown errors, so it has no error path) and
idempotent; it stops exactly the listeners that exist on the handle, leaves
absent transports absent, and a transport whose port was ≤ 0 never has a
listener on the handle `StartDNS` returns. -/
theorem shutdown_idempotent_total (s : Server) :
    Server.Shutdown (Server.Shutdown s) = Server.Shutdown s ∧
    (s.udp = none → (Server.Shutdown s).udp = none) ∧
    (s.tcp = none → (Server.Shutdown s).tcp = none) ∧
    (∀ u, s.udp = some u → (Server.Shutdown s).udp = some { running := false }) ∧
    (∀ t, s.tcp = some t → (Server.Shutdown s).tcp = some { running := false }) ∧
    (∀ (a : HostAgent) (sc : Except String ScConfig)
        (rc : Except String ClientConfig) (srv : Server),
      StartDNS a sc rc = .ok srv →
      (a.udpDNSLocalPort ≤ 0 → srv.udp = none) ∧
      (a.tcpDNSLocalPort ≤ 0 → srv.tcp = none)) := by
  refine ⟨?_, ?_, ?_, ?_, ?_, ?_⟩
  · cases s with
    | mk udp tcp =>
      cases udp <;> cases tcp <;>
        simp [Server.Shutdown, dnsServerShutdown_stopped]
  · intro hu
    simp [Server.Shutdown, hu]
  · intro ht
    simp [Server.Shutdown, ht]
  · intro u hu
    simp [Server.Shutdown, hu, dnsServerShutdown_stopped]
  · intro t ht
    simp [Server.Shutdown, ht, dnsServerShutdown_stopped]
  · intro a sc rc srv hok
    obtain ⟨h', hh⟩ := newHandler_total sc rc
    simp only [StartDNS, hh] at hok
    rw [StartOutcome.ok.injEq] at hok
    subst hok
    constructor
    · intro hle
      simp [show ¬ a.udpDNSLocalPort > 0 by omega]
    · intro hle
      simp [show ¬ a.tcpDNSLocalPort > 0 by omega]

/-- A handle with a started UDP listener and no TCP listener. -/
def srvW : Server := { udp := some { running := true }, tcp := none }

/-- Witness for C7 at a concrete handle: double shutdown equals single
shutdown; the started UDP listener is stopped; the absent TCP transport
stays absent; and a `StartDNS` with both ports 0 yields a handle with no
listeners at all. -/
theorem shutdown_idempotent_total_witness :
    Server.Shutdown (Server.Shutdown srvW) = Server.Shutdown srvW ∧
    (Server.Shutdown srvW).udp = some { running := false } ∧
    (Server.Shutdown srvW).tcp = none ∧
    ({ udp := none, tcp := none } : Server).udp = none :=
  ⟨(shutdown_idempotent_total srvW).1,
    (shutdown_idempotent_total srvW).2.2.2.1 { running := true } rfl,
    (shutdown_idempotent_total srvW).2.2.1 rfl,
    ((shutdown_idempotent_total srvW).2.2.2.2.2 { udpDNSLocalPort := 0, tcpDNSLocalPort := 0 }
      (.error "no scutil") (.error "no resolv.conf")
      { udp := none, tcp := none } rfl).1 (by decide)⟩

/-- Witness instantiating the C1 amended characterization at concrete
names. -/
theorem matchesDomain_characterization_witness :
    (matchesDomain "foo.example.com." "example.com" = true ↔
      ∃ p : List Char, (goToLower "foo.example.com.").data =
        p ++ ((goToLower "example.com").data ++ ['.'])) ∧
    matchesDomain "foo.example.com." "Example.COM" = true :=
  ⟨matchesDomain_characterization.1 "foo.example.com." "example.com",
    matchesDomain_characterization.2.1⟩

/-- Witness instantiating C5 at concrete ports and failed discovery
layers. -/
theorem startDNS_returns_handle_witness :
    (∃ srv : Server,
      StartDNS { udpDNSLocalPort := 5353, tcpDNSLocalPort := 5353 }
        (.error "scutil unavailable") (.error "no resolv.conf") = .ok srv) ∧
    ∀ e, StartDNS { udpDNSLocalPort := 5353, tcpDNSLocalPort := 5353 }
        (.error "scutil unavailable") (.error "no resolv.conf") ≠ .panicked e :=
  startDNS_returns_handle { udpDNSLocalPort := 5353, tcpDNSLocalPort := 5353 }
    (.error "scutil unavailable") (.error "no resolv.conf")

/-- Witness instantiating C6 at concrete discovery errors. -/
theorem newHandler_static_fallback_witness :
    newHandler (.error "scutil unavailable") (.error "no resolv.conf") =
      .ok { domainClientConfigs := []
            defaultClientConfigs :=
              [{ servers := ["8.8.8.8", "1.1.1.1"], port := "53" }]
            clients := stdClients } :=
  newHandler_static_fallback "scutil unavailable" "no resolv.conf"

/-- Witness instantiating C10 at a concrete handler, request and
network. -/
theorem serveDNS_writes_exactly_one_witness :
    ∃ m, (serveDNS exAllFail hRouteW reqQueryW).writes = [m] :=
  serveDNS_writes_exactly_one exAllFail hRouteW reqQueryW
